import Mathlib

/-!
# snailcrypt: the conformance test `src/ctest/main.c`

The source under study is the C test program `src/ctest/main.c`. It keeps four
file-scope `char *` variables, two callbacks that copy what the library hands them
into those variables, and two tests that encrypt a text, decrypt the result and
compare.

The development has three parts.

* A model of the C runtime the program uses: `strlen`, `strcmp`, `malloc`, `memcpy`,
  `free`, `assert`, and the conversions between `size_t` and `int`. A run ends in a
  value or in a `Fault`: undefined behaviour, or a failed assertion.
* The program: `encrypted_callback`, `decrypted_callback`, the two tests and `main`,
  over an arbitrary `Library` that stands for the two entry points declared in
  `snailcrypt.h`.
* The container codec and the facade behind those entry points. They are not among
  the sources at hand and are modelled from the specification's words.

Conventions of the model.

* Platform: LP64, `int` of 32 bits, `size_t` of 64 bits, assertions enabled.
* An object in memory is the list of its bytes from the pointer on (`Buf`); a
  `char *` is `none` for `NULL` or `some` object (`Ptr`).
* Each global owns the block it points to. The arguments of a callback are objects of
  the caller: the library never receives the blocks of `plaintext`, `hint` and
  `filename`, and is handed the block of `cipher` only for the call of `decrypt`,
  during which `cipher` is not freed. So no argument lies in a block that the
  callback frees before reading it.
* The machine does not run out of memory: `malloc` fails only on a request that no
  allocation can serve (more than `PTRDIFF_MAX` bytes).
-/

namespace Snailcrypt

/-! ## C runtime -/

/-- One `char` of memory, read as `unsigned char`. -/
abbrev Byte := Fin 256

/-- The bytes of an object, from the address a pointer holds to the object's end. -/
abbrev Buf := List Byte

/-- A `char *`: `none` is `NULL`, `some b` points at an object with bytes `b`. -/
abbrev Ptr := Option Buf

/-- The content of a string: its bytes without the terminating NUL. -/
abbrev Str := List Byte

/-- The ways a run of the program stops early. -/
inductive Fault where
  | undefinedBehaviour
  | assertionFailed (line : Nat)
  deriving DecidableEq

/-- Number of values of `size_t`. -/
def SIZE_MOD : Nat := 2 ^ 64

/-- Number of values of `int`. -/
def INT_MOD : Nat := 2 ^ 32

/-- Largest `int`. -/
def INT_MAX : Nat := 2 ^ 31 - 1

/-- Largest object size an allocation can have. -/
def PTRDIFF_MAX : Nat := 2 ^ 63 - 1

/-- The `sizeof(char)` of the C standard. -/
def sizeof_char : Nat := 1

/-- Scan of `strlen` over an object: the index of the first NUL byte, `none` when
the scan leaves the object. -/
def strlenBuf : Buf → Option Nat
  | [] => none
  | b :: bs => if b = 0 then some 0 else (strlenBuf bs).map (· + 1)

/-- The `strlen` of the C library; a null or unterminated argument is undefined. -/
def strlen (s : Ptr) : Except Fault Nat :=
  match s with
  | none => .error .undefinedBehaviour
  | some buf =>
    match strlenBuf buf with
    | none => .error .undefinedBehaviour
    | some n => .ok n

/-- Conversion of a `size_t` value to `int` (wraps modulo `2 ^ 32`, two's complement). -/
def sizeToInt (n : Nat) : Int :=
  if n % INT_MOD ≤ INT_MAX then ((n % INT_MOD : Nat) : Int)
  else ((n % INT_MOD : Nat) : Int) - (INT_MOD : Int)

/-- Conversion of an `int` value to `size_t` (modulo `2 ^ 64`). -/
def intToSize (i : Int) : Nat := (i % (SIZE_MOD : Int)).toNat

/-- The `malloc` of the C library on a machine that never runs out of memory: a
request of at most `PTRDIFF_MAX` bytes yields a new block, a larger one `NULL`.
The bytes of a new block are indeterminate; the model fills them with zero. -/
def malloc (size : Nat) : Ptr :=
  if size ≤ PTRDIFF_MAX then some (List.replicate size 0) else none

/-- The `free` of the C library: the block is gone, nothing is pointed at any more. -/
def free (_p : Ptr) : Ptr := none

/-- The `memcpy` of the C library, returning the new bytes of the destination
object. A null pointer, or a count beyond either object, is undefined. -/
def memcpy (dst src : Ptr) (n : Nat) : Except Fault Buf :=
  match dst, src with
  | some d, some s =>
    if n ≤ d.length ∧ n ≤ s.length then .ok (s.take n ++ d.drop n)
    else .error .undefinedBehaviour
  | _, _ => .error .undefinedBehaviour

/-- Scan of `strcmp` over two objects: `0` when both hold the same string, else the
difference of the first pair of bytes that differ; `none` when the scan leaves an
object. -/
def strcmpBuf : Buf → Buf → Option Int
  | a :: as, b :: bs =>
    if a ≠ b then some ((a.val : Int) - (b.val : Int))
    else if a = 0 then some 0
    else strcmpBuf as bs
  | _, _ => none

/-- The `strcmp` of the C library; null or unterminated arguments are undefined. -/
def strcmp (s1 s2 : Ptr) : Except Fault Int :=
  match s1, s2 with
  | some a, some b =>
    match strcmpBuf a b with
    | some r => .ok r
    | none => .error .undefinedBehaviour
  | _, _ => .error .undefinedBehaviour

/-- The `assert` of `assert.h` at a line of `main.c` (assertions enabled). -/
def c_assert (cond : Bool) (line : Nat) : Except Fault Unit :=
  if cond then .ok () else .error (.assertionFailed line)

/-- The string an object holds: its bytes before the first NUL. -/
def cstr (b : Buf) : Str := b.takeWhile (· ≠ 0)

/-- The bytes of a Lean string, one per character (the sources are ASCII). -/
def bytesOf (s : String) : Str :=
  s.toList.map (fun c => (⟨c.toNat % 256, Nat.mod_lt _ (by decide)⟩ : Byte))

/-- A C string literal: the characters and the terminating NUL. -/
def lit (s : String) : Ptr := some (bytesOf s ++ [0])

/-! ## The program `src/ctest/main.c` -/

/-- The four file-scope variables of `main.c`. -/
structure Globals where
  cipher : Ptr
  plaintext : Ptr
  hint : Ptr
  filename : Ptr
  deriving DecidableEq

/-- The globals as the program starts: all `NULL`. -/
def initialGlobals : Globals := ⟨none, none, none, none⟩

/-- The `encrypted_callback` of `main.c` (lines 26-47). -/
def encrypted_callback (cipher_new : Ptr) (g : Globals) : Except Fault (Int × Globals) := do
  -- if (cipher) free(cipher);
  let g := if g.cipher.isSome then { g with cipher := free g.cipher } else g
  -- int cipherlen = strlen(cipher_new) + 1;
  let cipherlen : Int := sizeToInt (((← strlen cipher_new) + 1) % SIZE_MOD)
  -- cipher = malloc(sizeof(char) * cipherlen);
  let g := { g with cipher := malloc (sizeof_char * intToSize cipherlen % SIZE_MOD) }
  -- memcpy(cipher, cipher_new, cipherlen);
  let block ← memcpy g.cipher cipher_new (intToSize cipherlen)
  let g := { g with cipher := some block }
  -- return 0;
  pure (0, g)

/-- The `decrypted_callback` of `main.c` (lines 49-104). -/
def decrypted_callback (plaintext_new hint_new filename_new : Ptr) (g : Globals) :
    Except Fault (Int × Globals) := do
  -- if (plaintext) free(plaintext);
  let g := if g.plaintext.isSome then { g with plaintext := free g.plaintext } else g
  -- int plaintextlen = strlen(plaintext_new) + 1;
  let plaintextlen : Int := sizeToInt (((← strlen plaintext_new) + 1) % SIZE_MOD)
  -- plaintext = malloc(sizeof(char) * plaintextlen);
  let g := { g with plaintext := malloc (sizeof_char * intToSize plaintextlen % SIZE_MOD) }
  -- memcpy(plaintext, plaintext_new, plaintextlen);
  let block ← memcpy g.plaintext plaintext_new (intToSize plaintextlen)
  let g := { g with plaintext := some block }
  -- if (hint) free(hint);
  let g := if g.hint.isSome then { g with hint := free g.hint } else g
  -- int hintlen = strlen(hint_new) + 1;
  let hintlen : Int := sizeToInt (((← strlen hint_new) + 1) % SIZE_MOD)
  -- hint = malloc(sizeof(char) * hintlen);
  let g := { g with hint := malloc (sizeof_char * intToSize hintlen % SIZE_MOD) }
  -- memcpy(hint, hint_new, hintlen);
  let block ← memcpy g.hint hint_new (intToSize hintlen)
  let g := { g with hint := some block }
  -- if (filename) free(filename);
  let g := if g.filename.isSome then { g with filename := free g.filename } else g
  -- int filenamelen = strlen(filename_new) + 1;
  let filenamelen : Int := sizeToInt (((← strlen filename_new) + 1) % SIZE_MOD)
  -- filename = malloc(sizeof(char) * filenamelen);
  let g := { g with filename := malloc (sizeof_char * intToSize filenamelen % SIZE_MOD) }
  -- memcpy(filename, filename_new, filenamelen);
  let block ← memcpy g.filename filename_new (intToSize filenamelen)
  let g := { g with filename := some block }
  -- return 0;
  pure (0, g)


/-- One invocation of the decrypt callback: plaintext, hint and filename, each
`none` for `NULL` or the string handed over. -/
abbrev Decrypted := Option Str × Option Str × Option Str

/-- An implementation of the two entry points of `snailcrypt.h`: for the strings
it is called with, the status returned and the callback invocations made, in
order. The callbacks of `main.c` return 0 whenever they return, so what the library
does with a callback's result plays no part. -/
structure Library where
  snailcrypt_ez_encrypt : Str → Str → Str → Str → Int × List (Option Str)
  snailcrypt_ez_decrypt : Str → Int × List Decrypted

/-- The pointer the library hands to a callback for a string: `NULL` or a
NUL-terminated object. -/
def toPtr (s : Option Str) : Ptr := s.map (· ++ [0])

/-- The string the library reads from a `const char *` argument. -/
def readString (p : Ptr) : Except Fault Str := do
  let n ← strlen p
  match p with
  | some b => pure (b.take n)
  | none => .error .undefinedBehaviour

/-- The call `snailcrypt_ez_encrypt(plaintext, timestamp, hint, filename, callback)`
made by the program: the library reads its arguments, invokes the callback as
often as it does, then returns its status. -/
def call_encrypt (L : Library) (plaintext timestamp hint filename : Ptr)
    (callback : Ptr → Globals → Except Fault (Int × Globals)) (g : Globals) :
    Except Fault (Int × Globals) := do
  let p ← readString plaintext
  let t ← readString timestamp
  let h ← readString hint
  let f ← readString filename
  let r := L.snailcrypt_ez_encrypt p t h f
  let g ← r.2.foldlM (fun g c => do
    let out ← callback (toPtr c) g
    pure out.2) g
  pure (r.1, g)

/-- The call `snailcrypt_ez_decrypt(cipher, &callback)` made by the program. -/
def call_decrypt (L : Library) (cipher : Ptr)
    (callback : Ptr → Ptr → Ptr → Globals → Except Fault (Int × Globals)) (g : Globals) :
    Except Fault (Int × Globals) := do
  let c ← readString cipher
  let r := L.snailcrypt_ez_decrypt c
  let g ← r.2.foldlM (fun g d => do
    let out ← callback (toPtr d.1) (toPtr d.2.1) (toPtr d.2.2) g
    pure out.2) g
  pure (r.1, g)

/-- The timestamp both tests pass. -/
def testTimestamp : String := "2022-11-19T17:00:00+0100"

/-- The `plaintext_orig` of `test_encrypt_vguess_small_str`. -/
def smallText : String := "hello world"

/-- The `plaintext_orig` of `test_encrypt_vguess_large_str` (adjacent literals are
concatenated without a separator, as the C compiler does). -/
def largeText : String :=
  "Nullam eu ante vel est convallis dignissim.  Fusce suscipit, wisi nec facilisis facilisis, est dui fermentum leo,"
  ++ "quis tempor ligula erat quis odio.  Nunc porta vulputate tellus."
  ++ "Nunc rutrum turpis sed pede.  Sed bibendum.  Aliquam posuere."
  ++ "Nunc aliquet, augue nec adipiscing interdum, lacus tellus malesuada"
  ++ "massa, quis varius mi purus non odio.  Pellentesque condimentum,"
  ++ "magna ut suscipit hendrerit, ipsum augue ornare nulla, non"
  ++ "luctus diam neque sit amet urna.  Curabitur vulputate vestibulum"
  ++ "lorem.  Fusce sagittis, libero non molestie mollis, magna orci"
  ++ "ultrices dolor, at vulputate neque nulla lacinia eros.  Sed id ligula"
  ++ "quis est convallis tempor.  Curabitur lacinia pulvinar nibh.  Nam a sapien."

/-- The `test_encrypt_vguess_small_str` of `main.c` (lines 106-126). -/
def test_encrypt_vguess_small_str (L : Library) (g : Globals) : Except Fault Globals := do
  -- char *plaintext_orig = "..."; char *hint_orig = ""; char *filename_orig = "";
  let plaintext_orig : Ptr := lit smallText
  let hint_orig : Ptr := lit ""
  let filename_orig : Ptr := lit ""
  -- int encryption_result = snailcrypt_ez_encrypt(plaintext_orig,
  --     "2022-11-19T17:00:00+0100", hint_orig, filename_orig, encrypted_callback);
  let r ← call_encrypt L plaintext_orig (lit testTimestamp) hint_orig filename_orig
    encrypted_callback g
  let encryption_result := r.1
  let g := r.2
  -- assert(encryption_result == 0);
  c_assert (encryption_result == 0) 114
  -- assert(cipher);
  c_assert g.cipher.isSome 115
  -- int decryption_result = snailcrypt_ez_decrypt(cipher, &decrypted_callback);
  let r ← call_decrypt L g.cipher decrypted_callback g
  let decryption_result := r.1
  let g := r.2
  -- assert(decryption_result == 0);
  c_assert (decryption_result == 0) 118
  -- assert(plaintext);
  c_assert g.plaintext.isSome 119
  -- assert(hint_orig);
  c_assert hint_orig.isSome 120
  -- assert(filename_orig);
  c_assert filename_orig.isSome 121
  -- assert(strcmp(plaintext_orig, plaintext) == 0);
  c_assert ((← strcmp plaintext_orig g.plaintext) == 0) 123
  -- assert(strcmp(hint_orig, hint) == 0);
  c_assert ((← strcmp hint_orig g.hint) == 0) 124
  -- assert(strcmp(filename_orig, filename) == 0);
  c_assert ((← strcmp filename_orig g.filename) == 0) 125
  pure g

/-- The `test_encrypt_vguess_large_str` of `main.c` (lines 128-157). -/
def test_encrypt_vguess_large_str (L : Library) (g : Globals) : Except Fault Globals := do
  -- char *plaintext_orig = "..."; char *hint_orig = ""; char *filename_orig = "";
  let plaintext_orig : Ptr := lit largeText
  let hint_orig : Ptr := lit ""
  let filename_orig : Ptr := lit ""
  -- int encryption_result = snailcrypt_ez_encrypt(plaintext_orig,
  --     "2022-11-19T17:00:00+0100", hint_orig, filename_orig, encrypted_callback);
  let r ← call_encrypt L plaintext_orig (lit testTimestamp) hint_orig filename_orig
    encrypted_callback g
  let encryption_result := r.1
  let g := r.2
  -- assert(encryption_result == 0);
  c_assert (encryption_result == 0) 145
  -- assert(cipher);
  c_assert g.cipher.isSome 146
  -- int decryption_result = snailcrypt_ez_decrypt(cipher, &decrypted_callback);
  let r ← call_decrypt L g.cipher decrypted_callback g
  let decryption_result := r.1
  let g := r.2
  -- assert(decryption_result == 0);
  c_assert (decryption_result == 0) 149
  -- assert(plaintext);
  c_assert g.plaintext.isSome 150
  -- assert(hint_orig);
  c_assert hint_orig.isSome 151
  -- assert(filename_orig);
  c_assert filename_orig.isSome 152
  -- assert(strcmp(plaintext_orig, plaintext) == 0);
  c_assert ((← strcmp plaintext_orig g.plaintext) == 0) 154
  -- assert(strcmp(hint_orig, hint) == 0);
  c_assert ((← strcmp hint_orig g.hint) == 0) 155
  -- assert(strcmp(filename_orig, filename) == 0);
  c_assert ((← strcmp filename_orig g.filename) == 0) 156
  pure g

/-- The `main` of `main.c` (lines 159-176): both tests in order, then `cipher` and
`plaintext` are freed; the exit status and the globals at exit. -/
def main (L : Library) (g : Globals) : Except Fault (Int × Globals) := do
  -- test_encrypt_vguess_small_str();
  let g ← test_encrypt_vguess_small_str L g
  -- test_encrypt_vguess_large_str();
  let g ← test_encrypt_vguess_large_str L g
  -- if (cipher) free(cipher);
  let g := if g.cipher.isSome then { g with cipher := free g.cipher } else g
  -- if (plaintext) free(plaintext);
  let g := if g.plaintext.isSome then { g with plaintext := free g.plaintext } else g
  -- return 0;
  pure (0, g)

/-- The common shape of the two tests: `plaintext_orig` and the line of the first
assertion are parameters; each test of `main.c` is an instance (see
`test_small_eq_body` and `test_large_eq_body`). -/
def test_body (plaintext_orig : Ptr) (line0 : Nat) (L : Library) (g : Globals) :
    Except Fault Globals := do
  let hint_orig : Ptr := lit ""
  let filename_orig : Ptr := lit ""
  let r ← call_encrypt L plaintext_orig (lit testTimestamp) hint_orig filename_orig
    encrypted_callback g
  let encryption_result := r.1
  let g := r.2
  c_assert (encryption_result == 0) line0
  c_assert g.cipher.isSome (line0 + 1)
  let r ← call_decrypt L g.cipher decrypted_callback g
  let decryption_result := r.1
  let g := r.2
  c_assert (decryption_result == 0) (line0 + 4)
  c_assert g.plaintext.isSome (line0 + 5)
  c_assert hint_orig.isSome (line0 + 6)
  c_assert filename_orig.isSome (line0 + 7)
  c_assert ((← strcmp plaintext_orig g.plaintext) == 0) (line0 + 9)
  c_assert ((← strcmp hint_orig g.hint) == 0) (line0 + 10)
  c_assert ((← strcmp filename_orig g.filename) == 0) (line0 + 11)
  pure g

/-! ### The facade contract, as a caller can state it -/

/-- Contract (i): a call that returns status zero has invoked its callback exactly
once. -/
def OnSuccessOnce (L : Library) : Prop :=
  (∀ p t h f, (L.snailcrypt_ez_encrypt p t h f).1 = 0 →
      (L.snailcrypt_ez_encrypt p t h f).2.length = 1)
  ∧ (∀ c, (L.snailcrypt_ez_decrypt c).1 = 0 → (L.snailcrypt_ez_decrypt c).2.length = 1)

/-- The call `encrypt(p, t, h, f)` succeeds and hands the container `c` to its
callback. -/
def Delivers (L : Library) (p t h f c : Str) : Prop :=
  (L.snailcrypt_ez_encrypt p t h f).1 = 0 ∧ some c ∈ (L.snailcrypt_ez_encrypt p t h f).2

/-- Contract (ii), the round-trip law as a caller of the two entry points can state
it, for the timestamps `valid` holds of: if `encrypt(p, t, h, f)` delivers a
container `c`, then `decrypt(c)` returns status zero and whatever it delivers is
exactly the original plaintext, hint and filename. -/
def RoundTripLaw (valid : Str → Prop) (L : Library) : Prop :=
  ∀ p t h f c, valid t → Delivers L p t h f c →
    (L.snailcrypt_ez_decrypt c).1 = 0
    ∧ ∀ d ∈ (L.snailcrypt_ez_decrypt c).2, d = (some p, some h, some f)

/-- The call `encrypt(p, timestamp, "", "")` of a test succeeds, and what it hands
to the callback is a string without an interior NUL, short enough for the `int`
length of `encrypted_callback`. -/
def SucceedsOn (L : Library) (p : Str) : Prop :=
  (L.snailcrypt_ez_encrypt p (bytesOf testTimestamp) [] []).1 = 0
  ∧ ∀ x ∈ (L.snailcrypt_ez_encrypt p (bytesOf testTimestamp) [] []).2,
      ∃ c, x = some c ∧ (0 : Byte) ∉ c ∧ c.length < INT_MAX

/-- A library that refuses every call: status 1, no callback invocation. -/
def rejectAll : Library := ⟨fun _ _ _ _ => (1, []), fun _ => (1, [])⟩

/-! ## The library, modelled from the specification

What `snailcrypt_ez_encrypt` and `snailcrypt_ez_decrypt` do is not part of the
sources at hand. The definitions below follow the specification's sections on
the Container Codec and the Ez-API Facade. -/

/-- Modelled from the spec: the `PlainRecord` of the data model, the four fields a
container carries (the sources define no such type). -/
structure PlainRecord where
  plaintext : List Byte
  timestamp : List Byte
  hint : List Byte
  filename : List Byte
  deriving DecidableEq

/-- Modelled from the spec: the error kinds of `decode` (the decoder is not in the
sources). -/
inductive DecodeError where
  | MalformedContainer
  | AuthenticationFailure
  | UnsupportedVersion
  deriving DecidableEq

/-- Modelled from the spec: the error kind of `encode`, raised before any
cryptographic work (the encoder is not in the sources). -/
inductive EncodeError where
  | InvalidInput
  deriving DecidableEq

/-- Modelled from the spec: the external authenticated-encryption collaborator,
`seal(key, nonce, aad, plaintext)` and `open(key, nonce, aad, sealed)`, together
with the symmetric key derived from the secret (the primitive is outside the
sources and left to the implementer). -/
structure Primitive where
  key : List Byte
  aead_seal : List Byte → List Byte → List Byte → List Byte → List Byte
  aead_open : List Byte → List Byte → List Byte → List Byte → Option (List Byte)

/-- Modelled from the spec: the interface law of the external primitive (`open`
inverts `seal`); opening what was sealed, under the same key, nonce and associated
data, gives the plaintext back. -/
def Primitive.Lawful (P : Primitive) : Prop :=
  ∀ k n a p, P.aead_open k n a (P.aead_seal k n a p) = some p

/-- The byte with value `n` modulo 256 (used by the modelled codec). -/
def toByte (n : Nat) : Byte := ⟨n % 256, Nat.mod_lt _ (by decide)⟩

/-- Modelled from the spec: part of the timestamp parser, which is not in the
sources; the value of an ASCII decimal digit. -/
def digitValue (b : Byte) : Option Nat :=
  if 48 ≤ b.val ∧ b.val ≤ 57 then some (b.val - 48) else none

/-- Modelled from the spec: part of the timestamp parser, which is not in the
sources; the value of two ASCII decimal digits. -/
def twoDigits (a b : Byte) : Option Nat :=
  match digitValue a, digitValue b with
  | some x, some y => some (10 * x + y)
  | _, _ => none

/-- Modelled from the spec: part of the timestamp parser, which is not in the
sources; leap years of the Gregorian calendar. -/
def isLeapYear (y : Nat) : Bool := (y % 4 == 0 && y % 100 != 0) || y % 400 == 0

/-- Modelled from the spec: part of the timestamp parser, which is not in the
sources; days of a month of the Gregorian calendar. -/
def daysInMonth (y m : Nat) : Nat :=
  if m == 2 then (if isLeapYear y then 29 else 28)
  else if m == 4 || m == 6 || m == 9 || m == 11 then 30
  else 31

/-- Modelled from the spec: a date-time with timezone offset, as the missing
timestamp parser reads it. -/
structure Timestamp where
  year : Nat
  month : Nat
  day : Nat
  hour : Nat
  minute : Nat
  second : Nat
  offsetMinutes : Int
  deriving DecidableEq

/-- Modelled from the spec: the timestamp check of `encode` ("must parse as a
date-time with timezone offset"); the parser is not in the sources. The accepted
form is that of the specification's example, `YYYY-MM-DDThh:mm:ss+hhmm` with a
sign `+` or `-`, and the fields must name a calendar date and a time of day. -/
def parseTimestamp : List Byte → Option Timestamp
  | [y1, y2, y3, y4, s1, m1, m2, s2, d1, d2, st, h1, h2, s3, n1, n2, s4, c1, c2, sg,
      o1, o2, o3, o4] =>
    match twoDigits y1 y2, twoDigits y3 y4, twoDigits m1 m2, twoDigits d1 d2,
      twoDigits h1 h2, twoDigits n1 n2, twoDigits c1 c2, twoDigits o1 o2, twoDigits o3 o4 with
    | some ya, some yb, some mo, some da, some ho, some mi, some se, some oh, some om =>
      let year := 100 * ya + yb
      if s1.val = 45 ∧ s2.val = 45 ∧ st.val = 84 ∧ s3.val = 58 ∧ s4.val = 58
          ∧ (sg.val = 43 ∨ sg.val = 45)
          ∧ 1 ≤ mo ∧ mo ≤ 12 ∧ 1 ≤ da ∧ da ≤ daysInMonth year mo
          ∧ ho ≤ 23 ∧ mi ≤ 59 ∧ se ≤ 59 ∧ oh ≤ 23 ∧ om ≤ 59 then
        some ⟨year, mo, da, ho, mi, se,
          if sg.val = 43 then ((60 * oh + om : Nat) : Int) else -((60 * oh + om : Nat) : Int)⟩
      else none
    | _, _, _, _, _, _, _, _, _ => none
  | _ => none

/-- Modelled from the spec: a timestamp the missing `encode` accepts ("valid
timestamp"). -/
def validTimestamp (ts : List Byte) : Prop := (parseTimestamp ts).isSome = true

instance (ts : List Byte) : Decidable (validTimestamp ts) := by
  unfold validTimestamp; infer_instance

/-- Modelled from the spec: part of the missing serializer; digits of a length in
base 128, least significant first, every digit but the last marked by its high
bit; `fuel` bounds the number of digits. -/
def encodeLenAux : Nat → Nat → List Byte
  | 0, n => [toByte (n % 128)]
  | fuel + 1, n =>
    if n < 128 then [toByte n] else toByte (128 + n % 128) :: encodeLenAux fuel (n / 128)

/-- Modelled from the spec: the byte length that precedes a field. The spec fixes
no width; the model uses a self-delimiting base-128 encoding, which has a code
for every length. -/
def encodeLen (n : Nat) : List Byte := encodeLenAux n n

/-- Modelled from the spec: part of the missing parser; inverse of `encodeLen`, the
length read from the front of the input and the rest of the input. -/
def decodeLen : List Byte → Option (Nat × List Byte)
  | [] => none
  | b :: rest =>
    if b.val < 128 then some (b.val, rest)
    else
      match decodeLen rest with
      | none => none
      | some (m, rest2) => some (b.val - 128 + 128 * m, rest2)

/-- Modelled from the spec: one length-prefixed field ("each field preceded by its
byte length"). -/
def putField (f : List Byte) : List Byte := encodeLen f.length ++ f

/-- Modelled from the spec: part of the missing parser; reads one length-prefixed
field from the front of the input. -/
def getField (bs : List Byte) : Option (List Byte × List Byte) :=
  match decodeLen bs with
  | none => none
  | some (n, rest) => if n ≤ rest.length then some (rest.take n, rest.drop n) else none

/-- Modelled from the spec: the length-prefixed, order-fixed record of timestamp,
hint, filename and plaintext (the serializer is not in the sources). -/
def serialize (r : PlainRecord) : List Byte :=
  putField r.timestamp ++ putField r.hint ++ putField r.filename ++ putField r.plaintext

/-- Modelled from the spec: the missing parser of the record; inverse of
`serialize`, the four fields with nothing left over. -/
def parseRecord (bs : List Byte) : Option PlainRecord :=
  match getField bs with
  | none => none
  | some (ts, r1) =>
    match getField r1 with
    | none => none
    | some (h, r2) =>
      match getField r2 with
      | none => none
      | some (f, r3) =>
        match getField r3 with
        | none => none
        | some (p, r4) =>
          if r4 = [] then some ⟨p, ts, h, f⟩ else none

/-- Modelled from the spec: the version tag the missing codec writes. -/
def VERSION : Byte := 1

/-- Modelled from the spec: the container layout, a version tag followed by the
length-prefixed nonce and the length-prefixed output of `seal` over the
serialized record, the version tag being the associated data. -/
def container (P : Primitive) (nonce : List Byte) (r : PlainRecord) : List Byte :=
  VERSION :: (putField nonce ++ putField (P.aead_seal P.key nonce [VERSION] (serialize r)))

/-- Modelled from the spec: `encode` of the Container Codec; a malformed timestamp
is rejected before any cryptographic work. The nonce is the randomness drawn for
this call. -/
def encode (P : Primitive) (nonce : List Byte) (r : PlainRecord) :
    Except EncodeError (List Byte) :=
  match parseTimestamp r.timestamp with
  | none => .error .InvalidInput
  | some _ => .ok (container P nonce r)

/-- Modelled from the spec: `decode` of the Container Codec. A newer version tag
is `UnsupportedVersion`; truncation, bad length prefixes, trailing bytes and an
unknown version are `MalformedContainer`; a refusal of `open` is
`AuthenticationFailure`; nothing is released before `open` has accepted. -/
def decode (P : Primitive) (bs : List Byte) : Except DecodeError PlainRecord :=
  match bs with
  | [] => .error .MalformedContainer
  | v :: body =>
    if VERSION.val < v.val then .error .UnsupportedVersion
    else if v ≠ VERSION then .error .MalformedContainer
    else
      match getField body with
      | none => .error .MalformedContainer
      | some (nonce, r1) =>
        match getField r1 with
        | none => .error .MalformedContainer
        | some (sealed, r2) =>
          if r2 ≠ [] then .error .MalformedContainer
          else
            match P.aead_open P.key nonce [v] sealed with
            | none => .error .AuthenticationFailure
            | some pt =>
              match parseRecord pt with
              | none => .error .MalformedContainer
              | some r => .ok r

/-- Modelled from the spec: part of the missing text encoding; the ASCII
hexadecimal digit (lower case) of a value below 16. -/
def hexDigit (n : Nat) : Byte := if n < 10 then toByte (48 + n) else toByte (87 + n)

/-- Modelled from the spec: part of the missing text decoding; the value of an
ASCII hexadecimal digit (lower case). -/
def hexValue (b : Byte) : Option Nat :=
  if 48 ≤ b.val ∧ b.val ≤ 57 then some (b.val - 48)
  else if 97 ≤ b.val ∧ b.val ≤ 102 then some (b.val - 87)
  else none

/-- Modelled from the spec: the text-safe form of a container ("a text-safe
encoding such as base encoding over the raw bytes"): two hexadecimal digits per
byte. -/
def toText : List Byte → Str
  | [] => []
  | b :: bs => hexDigit (b.val / 16) :: hexDigit (b.val % 16) :: toText bs

/-- Modelled from the spec: the missing text decoding; inverse of `toText`, `none`
on an odd length or a byte that is no digit. -/
def fromText : Str → Option (List Byte)
  | [] => some []
  | [_] => none
  | a :: b :: rest =>
    match hexValue a, hexValue b, fromText rest with
    | some x, some y, some bs => some (toByte (16 * x + y) :: bs)
    | _, _, _ => none

/-- Modelled from the spec: `decode` applied to a container given as text. -/
def decodeText (P : Primitive) (text : Str) : Except DecodeError PlainRecord :=
  match fromText text with
  | none => .error .MalformedContainer
  | some bs => decode P bs

/-- Modelled from the spec: the non-success status the missing facade returns for
an error of `encode`; never zero. -/
def encodeStatus : EncodeError → Int
  | .InvalidInput => 1

/-- Modelled from the spec: the non-success status the missing facade returns for
an error of `decode`; never zero. -/
def decodeStatus : DecodeError → Int
  | .MalformedContainer => 2
  | .AuthenticationFailure => 3
  | .UnsupportedVersion => 4

/-- Modelled from the spec: `encrypt` of the Ez-API Facade, which is not in the
sources: builds the record, runs `encode`, and on success invokes the callback once
with the container as text and returns status zero. -/
def ez_encrypt (P : Primitive) (nonce : List Byte) (plaintext timestamp hint filename : Str) :
    Int × List (Option Str) :=
  match encode P nonce ⟨plaintext, timestamp, hint, filename⟩ with
  | .error e => (encodeStatus e, [])
  | .ok c => (0, [some (toText c)])

/-- Modelled from the spec: `decrypt` of the Ez-API Facade, which is not in the
sources: runs `decode`, and on success invokes the callback once with plaintext,
hint and filename and returns status zero. -/
def ez_decrypt (P : Primitive) (text : Str) : Int × List Decrypted :=
  match decodeText P text with
  | .error e => (decodeStatus e, [])
  | .ok r => (0, [(some r.plaintext, some r.hint, some r.filename)])

/-- Modelled from the spec: the missing library as a whole, for a primitive and the
nonce drawn. -/
def specLibrary (P : Primitive) (nonce : List Byte) : Library :=
  ⟨ez_encrypt P nonce, ez_decrypt P⟩

/-- Sum of the bytes, modulo 256 (the tag of the example primitive). -/
def checksum (bs : List Byte) : Byte := toByte (bs.foldl (fun acc b => acc + b.val) 0)

/-- A primitive for worked examples: bytes shifted by a mask drawn from key and
nonce, followed by a one-byte checksum over key, nonce, associated data and
plaintext. It meets the interface law and has no cryptographic strength. -/
def toyPrimitive : Primitive where
  key := [42]
  aead_seal := fun k n a p =>
    p.map (fun b => toByte (b.val + (checksum (k ++ n)).val)) ++ [checksum (k ++ n ++ a ++ p)]
  aead_open := fun k n a c =>
    let p := c.dropLast.map (fun b => toByte (b.val + (256 - (checksum (k ++ n)).val)))
    if c.getLast? = some (checksum (k ++ n ++ a ++ p)) then some p else none
/-! ## The C runtime and the callbacks: lemmas -/


theorem strlenBuf_eq_of_mem (b : Buf) (h : (0 : Byte) ∈ b) :
    strlenBuf b = some (cstr b).length := by
  induction b with
  | nil => simp at h
  | cons a as ih =>
    by_cases ha : a = 0
    · simp [strlenBuf, cstr, ha]
    · have h2 : (0 : Byte) ∈ as := by
        rcases List.mem_cons.mp h with h1 | h1
        · exact absurd h1.symm ha
        · exact h1
      simp [strlenBuf, cstr, ha, List.takeWhile_cons] at ih ⊢
      simpa [cstr] using ih h2

theorem take_succ_cstr (b : Buf) (h : (0 : Byte) ∈ b) :
    b.take ((cstr b).length + 1) = cstr b ++ [0] := by
  induction b with
  | nil => simp at h
  | cons a as ih =>
    by_cases ha : a = 0
    · simp [cstr, ha]
    · have h2 : (0 : Byte) ∈ as := by
        rcases List.mem_cons.mp h with h1 | h1
        · exact absurd h1.symm ha
        · exact h1
      have := ih h2
      simp [cstr, ha, List.takeWhile_cons] at this ⊢
      exact this

theorem cstr_length_lt (b : Buf) (h : (0 : Byte) ∈ b) : (cstr b).length < b.length := by
  induction b with
  | nil => simp at h
  | cons a as ih =>
    by_cases ha : a = 0
    · simp [cstr, ha]
    · have h2 : (0 : Byte) ∈ as := by
        rcases List.mem_cons.mp h with h1 | h1
        · exact absurd h1.symm ha
        · exact h1
      have := ih h2
      simp [cstr, ha, List.takeWhile_cons] at this ⊢
      exact this

theorem sizeToInt_small (n : Nat) (h : n ≤ INT_MAX) : sizeToInt (n % SIZE_MOD) = (n : Int) := by
  have h0 := h
  unfold INT_MAX at h
  have h1 : n % SIZE_MOD = n := Nat.mod_eq_of_lt (by unfold SIZE_MOD; omega)
  have h2 : n % INT_MOD = n := Nat.mod_eq_of_lt (by unfold INT_MOD; omega)
  simp only [sizeToInt, h1, h2]
  rw [if_pos h0]

theorem intToSize_small (n : Nat) (h : n ≤ INT_MAX) : intToSize (n : Int) = n := by
  unfold INT_MAX at h
  unfold intToSize SIZE_MOD
  omega

theorem malloc_small (n : Nat) (h : n ≤ INT_MAX) :
    malloc (sizeof_char * n % SIZE_MOD) = some (List.replicate n 0) := by
  unfold INT_MAX at h
  have h1 : sizeof_char * n % SIZE_MOD = n := by
    unfold sizeof_char SIZE_MOD; omega
  have h2 : n ≤ PTRDIFF_MAX := by unfold PTRDIFF_MAX; omega
  simp [malloc, h1, h2]

theorem memcpy_string (b : Buf) (h : (0 : Byte) ∈ b) :
    memcpy (some (List.replicate ((cstr b).length + 1) 0)) (some b) ((cstr b).length + 1)
      = .ok (cstr b ++ [0]) := by
  have hl := cstr_length_lt b h
  have ht := take_succ_cstr b h
  simp [memcpy, ht]
  omega


theorem strlen_string (b : Buf) (h : (0 : Byte) ∈ b) :
    strlen (some b) = .ok (cstr b).length := by
  simp [strlen, strlenBuf_eq_of_mem b h]

theorem encrypted_callback_ok (b : Buf) (g : Globals) (h : (0 : Byte) ∈ b)
    (hlen : (cstr b).length < INT_MAX) :
    encrypted_callback (some b) g = .ok (0, { g with cipher := some (cstr b ++ [0]) }) := by
  have h1 : (cstr b).length + 1 ≤ INT_MAX := hlen
  have e1 := sizeToInt_small _ h1
  have e2 := intToSize_small _ h1
  have e3 := malloc_small _ h1
  have e4 := memcpy_string b h
  simp only [encrypted_callback, strlen_string b h, bind, Except.bind, pure, Except.pure]
  rw [e1, e2, e3]
  cases hc : g.cipher <;> simp [hc, e4, free]

theorem decrypted_callback_ok (p h f : Buf) (g : Globals)
    (hp : (0 : Byte) ∈ p) (hh : (0 : Byte) ∈ h) (hf : (0 : Byte) ∈ f)
    (lp : (cstr p).length < INT_MAX) (lh : (cstr h).length < INT_MAX)
    (lf : (cstr f).length < INT_MAX) :
    decrypted_callback (some p) (some h) (some f) g
      = .ok (0, { cipher := g.cipher, plaintext := some (cstr p ++ [0]),
                  hint := some (cstr h ++ [0]), filename := some (cstr f ++ [0]) }) := by
  have p1 : (cstr p).length + 1 ≤ INT_MAX := lp
  have h1 : (cstr h).length + 1 ≤ INT_MAX := lh
  have f1 : (cstr f).length + 1 ≤ INT_MAX := lf
  simp only [decrypted_callback, strlen_string p hp, strlen_string h hh, strlen_string f hf,
    bind, Except.bind, pure, Except.pure]
  rw [sizeToInt_small _ p1, intToSize_small _ p1, malloc_small _ p1,
    sizeToInt_small _ h1, intToSize_small _ h1, malloc_small _ h1,
    sizeToInt_small _ f1, intToSize_small _ f1, malloc_small _ f1]
  obtain ⟨c0, p0, h0, f0⟩ := g
  cases p0 <;> cases h0 <;> cases f0 <;>
    simp [memcpy_string p hp, memcpy_string h hh, memcpy_string f hf, free]

theorem int_overflow_steps (n : Nat) (h1 : INT_MAX ≤ n) (h2 : n + 1 < INT_MOD) :
    malloc (sizeof_char * intToSize (sizeToInt ((n + 1) % SIZE_MOD)) % SIZE_MOD) = none := by
  unfold INT_MAX at h1
  unfold INT_MOD at h2
  have e1 : sizeToInt ((n + 1) % SIZE_MOD) = ((n + 1 : Nat) : Int) - 4294967296 := by
    have a1 : (n + 1) % SIZE_MOD = n + 1 := Nat.mod_eq_of_lt (by unfold SIZE_MOD; omega)
    have a2 : (n + 1) % INT_MOD = n + 1 := Nat.mod_eq_of_lt (by unfold INT_MOD; omega)
    have a3 : ¬ (n + 1 ≤ INT_MAX) := by unfold INT_MAX; omega
    simp only [sizeToInt, a1, a2, if_neg a3]
    simp [INT_MOD]
  have e2 : intToSize (((n + 1 : Nat) : Int) - 4294967296) = 18446744069414584320 + (n + 1) := by
    unfold intToSize SIZE_MOD
    omega
  have e3 : ¬ (sizeof_char * (18446744069414584320 + (n + 1)) % SIZE_MOD ≤ PTRDIFF_MAX) := by
    unfold sizeof_char SIZE_MOD PTRDIFF_MAX; omega
  rw [e1, e2]
  simp only [malloc, if_neg e3]

theorem encrypted_callback_overflow (b : Buf) (g : Globals) (h0 : (0 : Byte) ∈ b)
    (h1 : INT_MAX ≤ (cstr b).length) (h2 : (cstr b).length + 1 < INT_MOD) :
    encrypted_callback (some b) g = .error .undefinedBehaviour := by
  have e := int_overflow_steps _ h1 h2
  simp only [encrypted_callback, strlen_string b h0, bind, Except.bind, pure, Except.pure]
  rw [e]
  cases hc : g.cipher <;> simp [hc, memcpy, free]

theorem cstr_append_nul (s : Str) (h : (0 : Byte) ∉ s) : cstr (s ++ [0]) = s := by
  induction s with
  | nil => simp [cstr]
  | cons a as ih =>
    have ha : a ≠ 0 := fun e => h (by simp [e])
    have h2 : (0 : Byte) ∉ as := fun e => h (List.mem_cons_of_mem _ e)
    have := ih h2
    simp [cstr, ha, List.takeWhile_cons] at this ⊢
    exact this

theorem nul_mem_append_nul (s : Str) : (0 : Byte) ∈ s ++ [0] := by simp

theorem cstr_replicate (n : Nat) (a : Byte) (ha : a ≠ 0) :
    cstr (List.replicate n a ++ [0]) = List.replicate n a :=
  cstr_append_nul _ (fun h => ha (List.eq_of_mem_replicate h).symm)

theorem decrypted_callback_overflow_gen (p : Buf) (h f : Ptr) (g : Globals)
    (h0 : (0 : Byte) ∈ p) (h1 : INT_MAX ≤ (cstr p).length)
    (h2 : (cstr p).length + 1 < INT_MOD) :
    decrypted_callback (some p) h f g = .error .undefinedBehaviour := by
  have e := int_overflow_steps _ h1 h2
  simp only [decrypted_callback, strlen_string p h0, bind, Except.bind, pure, Except.pure]
  rw [e]
  cases hc : g.plaintext <;> simp [hc, memcpy, free]

theorem toByte_val_of_lt (n : Nat) (h : n < 256) : (toByte n).val = n := by
  simp [toByte, Nat.mod_eq_of_lt h]

theorem decodeLen_encodeLenAux (fuel n : Nat) (rest : List Byte) (h : n ≤ fuel) :
    decodeLen (encodeLenAux fuel n ++ rest) = some (n, rest) := by
  induction fuel generalizing n with
  | zero =>
    have : n = 0 := by omega
    subst this
    simp [encodeLenAux, decodeLen, toByte]
  | succ k ih =>
    by_cases hn : n < 128
    · have hv : (toByte n).val = n := toByte_val_of_lt n (by omega)
      simp [encodeLenAux, hn, decodeLen, hv]
    · have hv : (toByte (128 + n % 128)).val = 128 + n % 128 :=
        toByte_val_of_lt _ (by omega)
      have hr := ih (n / 128) (by omega)
      simp only [encodeLenAux, if_neg hn, List.cons_append, decodeLen, hv]
      rw [if_neg (by omega), hr]
      simp only [Option.some.injEq, Prod.mk.injEq, and_true]
      omega

theorem decodeLen_encodeLen (n : Nat) (rest : List Byte) :
    decodeLen (encodeLen n ++ rest) = some (n, rest) :=
  decodeLen_encodeLenAux n n rest (Nat.le_refl n)

theorem getField_putField (f rest : List Byte) :
    getField (putField f ++ rest) = some (f, rest) := by
  simp [getField, putField, List.append_assoc, decodeLen_encodeLen]

theorem parseRecord_serialize (r : PlainRecord) : parseRecord (serialize r) = some r := by
  have h4 : getField (putField r.plaintext) = some (r.plaintext, []) := by
    simpa using getField_putField r.plaintext []
  simp only [parseRecord, serialize, List.append_assoc, getField_putField, h4]
  simp

theorem hexValue_hexDigit (n : Nat) (h : n < 16) : hexValue (hexDigit n) = some n := by
  interval_cases n <;> rfl

theorem hexDigit_ne_zero (n : Nat) (h : n < 16) : hexDigit n ≠ 0 := by
  interval_cases n <;> decide

theorem toByte_hex (b : Byte) : toByte (16 * (b.val / 16) + b.val % 16) = b := by
  apply Fin.ext
  have := b.isLt
  simp only [toByte]
  omega

theorem fromText_toText (bs : List Byte) : fromText (toText bs) = some bs := by
  induction bs with
  | nil => rfl
  | cons b rest ih =>
    have h1 : b.val / 16 < 16 := by have := b.isLt; omega
    have h2 : b.val % 16 < 16 := by omega
    simp [toText, fromText, hexValue_hexDigit _ h1, hexValue_hexDigit _ h2, ih, toByte_hex]

theorem toText_no_nul (bs : List Byte) : (0 : Byte) ∉ toText bs := by
  induction bs with
  | nil => simp [toText]
  | cons b rest ih =>
    have h1 : b.val / 16 < 16 := by have := b.isLt; omega
    have h2 : b.val % 16 < 16 := by omega
    have n1 := hexDigit_ne_zero _ h1
    have n2 := hexDigit_ne_zero _ h2
    simp only [toText, List.mem_cons, not_or]
    exact ⟨fun e => n1 e.symm, fun e => n2 e.symm, ih⟩

theorem decode_container (P : Primitive) (hP : P.Lawful) (nonce : List Byte) (r : PlainRecord) :
    decode P (container P nonce r) = .ok r := by
  have h2 : getField (putField (P.aead_seal P.key nonce [VERSION] (serialize r)))
      = some (P.aead_seal P.key nonce [VERSION] (serialize r), []) := by
    simpa using getField_putField (P.aead_seal P.key nonce [VERSION] (serialize r)) []
  simp [decode, container, getField_putField, h2, hP P.key nonce [VERSION] (serialize r),
    parseRecord_serialize]

theorem decodeText_toText_container (P : Primitive) (hP : P.Lawful) (nonce : List Byte)
    (r : PlainRecord) : decodeText P (toText (container P nonce r)) = .ok r := by
  simp [decodeText, fromText_toText, decode_container P hP]

theorem toByte_shift (b m : Byte) : toByte ((toByte (b.val + m.val)).val + (256 - m.val)) = b := by
  apply Fin.ext
  have := b.isLt
  have := m.isLt
  simp only [toByte]
  omega

theorem toyPrimitive_lawful : toyPrimitive.Lawful := by
  intro k n a p
  have hm : List.map (fun b : Byte => toByte (b.val + (256 - (checksum (k ++ n)).val)))
      (List.map (fun b : Byte => toByte (b.val + (checksum (k ++ n)).val)) p) = p := by
    rw [List.map_map]
    conv_rhs => rw [← List.map_id p]
    apply List.map_congr_left
    intro b _
    simp [toByte_shift]
  simp [toyPrimitive, hm]

theorem ez_encrypt_valid (P : Primitive) (nonce p t h f : List Byte) (hv : validTimestamp t) :
    ez_encrypt P nonce p t h f = (0, [some (toText (container P nonce ⟨p, t, h, f⟩))]) := by
  unfold validTimestamp at hv
  obtain ⟨ts, hts⟩ := Option.isSome_iff_exists.mp hv
  simp [ez_encrypt, encode, hts]

theorem ez_encrypt_invalid (P : Primitive) (nonce p t h f : List Byte) (hv : ¬ validTimestamp t) :
    ez_encrypt P nonce p t h f = (1, []) := by
  unfold validTimestamp at hv
  have hts : parseTimestamp t = none := by
    cases hp : parseTimestamp t with
    | none => rfl
    | some x => simp [hp] at hv
  simp [ez_encrypt, encode, hts, encodeStatus]

theorem decrypt_of_delivered (P : Primitive) (hP : P.Lawful) (nonce p t h f c : List Byte)
    (hd : some c ∈ (ez_encrypt P nonce p t h f).2) :
    ez_decrypt P c = (0, [(some p, some h, some f)]) := by
  by_cases hv : validTimestamp t
  · rw [ez_encrypt_valid P nonce p t h f hv] at hd
    simp at hd
    subst hd
    simp [ez_decrypt, decodeText_toText_container P hP]
  · rw [ez_encrypt_invalid P nonce p t h f hv] at hd
    simp at hd

theorem serialize_injective : Function.Injective serialize := by
  intro r1 r2 h
  have h1 := parseRecord_serialize r1
  rw [h, parseRecord_serialize r2] at h1
  exact (Option.some.inj h1).symm

theorem ez_decrypt_error (P : Primitive) (text : Str) (e : DecodeError)
    (h : decodeText P text = .error e) :
    (ez_decrypt P text).1 ≠ 0 ∧ (ez_decrypt P text).2 = [] := by
  simp only [ez_decrypt, h]
  cases e <;> simp [decodeStatus]

/-! ## The tests against the facade contract -/

theorem test_small_eq_body (L : Library) (g : Globals) :
    test_encrypt_vguess_small_str L g = test_body (lit smallText) 114 L g := rfl

theorem test_large_eq_body (L : Library) (g : Globals) :
    test_encrypt_vguess_large_str L g = test_body (lit largeText) 145 L g := rfl

theorem readString_string (s : Str) (h : (0 : Byte) ∉ s) :
    readString (some (s ++ [0])) = .ok s := by
  have h1 := strlen_string (s ++ [0]) (nul_mem_append_nul s)
  rw [cstr_append_nul s h] at h1
  simp [readString, h1, bind, Except.bind, pure, Except.pure]

theorem strcmpBuf_self (b : Buf) (h : (0 : Byte) ∈ b) : strcmpBuf b b = some 0 := by
  induction b with
  | nil => simp at h
  | cons a as ih =>
    by_cases ha : a = 0
    · simp [strcmpBuf, ha]
    · have h2 : (0 : Byte) ∈ as := by
        rcases List.mem_cons.mp h with h1 | h1
        · exact absurd h1.symm ha
        · exact h1
      simp [strcmpBuf, ha, ih h2]

theorem strcmp_self (s : Str) : strcmp (some (s ++ [0])) (some (s ++ [0])) = .ok 0 := by
  simp [strcmp, strcmpBuf_self (s ++ [0]) (nul_mem_append_nul s)]

theorem testTimestamp_no_nul : (0 : Byte) ∉ bytesOf testTimestamp := by decide

theorem test_body_ok (valid : Str → Prop) (L : Library) (g : Globals) (text : Str) (line0 : Nat)
    (ht0 : (0 : Byte) ∉ text) (htl : text.length < INT_MAX)
    (hv : valid (bytesOf testTimestamp)) (h1 : OnSuccessOnce L) (h2 : RoundTripLaw valid L)
    (h3 : SucceedsOn L text) :
    ∃ c, (L.snailcrypt_ez_encrypt text (bytesOf testTimestamp) [] []).2 = [some c]
      ∧ test_body (some (text ++ [0])) line0 L g
        = .ok ⟨some (c ++ [0]), some (text ++ [0]), some [0], some [0]⟩ := by
  obtain ⟨hs, hx⟩ := h3
  have hlen := h1.1 _ _ _ _ hs
  obtain ⟨x, hx1⟩ := List.length_eq_one.mp hlen
  obtain ⟨c, hc, hc0, hcl⟩ := hx x (by simp [hx1])
  subst hc
  have hdel : Delivers L text (bytesOf testTimestamp) [] [] c := ⟨hs, by simp [hx1]⟩
  obtain ⟨hd0, hdall⟩ := h2 _ _ _ _ _ hv hdel
  obtain ⟨d, hd1⟩ := List.length_eq_one.mp (h1.2 _ hd0)
  have hd : d = (some text, some [], some []) := hdall d (by simp [hd1])
  subst hd
  refine ⟨c, hx1, ?_⟩
  have e1 := encrypted_callback_ok (c ++ [0]) g (nul_mem_append_nul c)
    (by rw [cstr_append_nul c hc0]; exact hcl)
  rw [cstr_append_nul c hc0] at e1
  have e2 := decrypted_callback_ok (text ++ [0]) [0] [0]
    { g with cipher := some (c ++ [0]) } (nul_mem_append_nul text) (by simp) (by simp)
    (by rw [cstr_append_nul text ht0]; exact htl) (by decide) (by decide)
  rw [cstr_append_nul text ht0] at e2
  have e3 : cstr ([0] : Buf) = [] := by decide
  rw [e3] at e2
  have r0 : readString (some ([] ++ [0])) = .ok [] := readString_string [] (by simp)
  simp only [List.nil_append] at r0 e2
  simp only [test_body, call_encrypt, call_decrypt, lit, show bytesOf "" = [] from rfl,
    List.nil_append, readString_string text ht0, r0,
    readString_string _ testTimestamp_no_nul, bind, Except.bind, pure, Except.pure,
    hx1, hs, hd1, hd0, List.foldlM_cons, List.foldlM_nil, toPtr, Option.map, e1,
    readString_string c hc0, e2, strcmp_self]
  have s0 := strcmp_self []
  simp only [List.nil_append] at s0
  simp [c_assert, s0]

theorem specLibrary_onSuccessOnce (P : Primitive) (nonce : List Byte) :
    OnSuccessOnce (specLibrary P nonce) := by
  constructor
  · intro p t h f hs
    by_cases hv : validTimestamp t
    · simp [specLibrary, ez_encrypt_valid P nonce p t h f hv]
    · simp [specLibrary, ez_encrypt_invalid P nonce p t h f hv] at hs
  · intro c hs
    simp only [specLibrary, ez_decrypt] at hs ⊢
    cases hd : decodeText P c with
    | error e => rw [hd] at hs; cases e <;> simp [decodeStatus] at hs
    | ok r => simp

theorem specLibrary_roundTrip (P : Primitive) (hP : P.Lawful) (nonce : List Byte) :
    RoundTripLaw validTimestamp (specLibrary P nonce) := by
  intro p t h f c _ hd
  have := decrypt_of_delivered P hP nonce p t h f c hd.2
  simp only [specLibrary]
  rw [this]
  simp

theorem specLibrary_succeedsOn (P : Primitive) (nonce : List Byte) (p : Str)
    (hlen : (toText (container P nonce ⟨p, bytesOf testTimestamp, [], []⟩)).length < INT_MAX) :
    SucceedsOn (specLibrary P nonce) p := by
  have hv : validTimestamp (bytesOf testTimestamp) := by decide
  simp only [SucceedsOn, specLibrary, ez_encrypt_valid P nonce p _ [] [] hv]
  refine ⟨trivial, ?_⟩
  intro x hx
  simp only [List.mem_singleton] at hx
  exact ⟨_, hx, toText_no_nul _, hlen⟩

set_option maxRecDepth 100000

theorem smallText_no_nul : (0 : Byte) ∉ bytesOf smallText := by decide

theorem largeText_no_nul : (0 : Byte) ∉ bytesOf largeText := by decide

theorem smallText_short : (bytesOf smallText).length < INT_MAX := by decide

theorem largeText_short : (bytesOf largeText).length < INT_MAX := by decide

theorem toy_small_short :
    (toText (container toyPrimitive [9, 9]
      ⟨bytesOf smallText, bytesOf testTimestamp, [], []⟩)).length < INT_MAX := by decide

theorem toy_large_short :
    (toText (container toyPrimitive [9, 9]
      ⟨bytesOf largeText, bytesOf testTimestamp, [], []⟩)).length < INT_MAX := by decide

/-! ## The claims about the library (settled on the model of the specification) -/

/-- C1: round trip. For every plaintext, timestamp, hint and filename (empty or not),
if `encrypt` delivers a container `c` to its callback, then `decrypt` of `c` returns
status 0 and delivers exactly once, with the original plaintext, hint and filename,
field for field. The primitive is any one that meets the seal/open law. -/
theorem ez_round_trip (P : Primitive) (hP : P.Lawful) (nonce p t h f c : List Byte)
    (hd : some c ∈ (ez_encrypt P nonce p t h f).2) :
    ez_decrypt P c = (0, [(some p, some h, some f)]) :=
  decrypt_of_delivered P hP nonce p t h f c hd

/-- Witness of C1: the two plaintexts of the tests, `"hello world"` and the Latin
passage, with the tests' timestamp and empty hint and filename. -/
theorem ez_round_trip_witness :
    (toyPrimitive.Lawful
      ∧ some (toText (container toyPrimitive [1, 2, 3]
            ⟨bytesOf smallText, bytesOf testTimestamp, [], []⟩))
          ∈ (ez_encrypt toyPrimitive [1, 2, 3] (bytesOf smallText) (bytesOf testTimestamp) [] []).2
      ∧ ez_decrypt toyPrimitive (toText (container toyPrimitive [1, 2, 3]
            ⟨bytesOf smallText, bytesOf testTimestamp, [], []⟩))
          = (0, [(some (bytesOf smallText), some [], some [])]))
    ∧ ez_decrypt toyPrimitive (toText (container toyPrimitive [1, 2, 3]
            ⟨bytesOf largeText, bytesOf testTimestamp, [], []⟩))
          = (0, [(some (bytesOf largeText), some [], some [])]) :=
  have m1 : ∀ p : Str, some (toText (container toyPrimitive [1, 2, 3]
        ⟨p, bytesOf testTimestamp, [], []⟩))
      ∈ (ez_encrypt toyPrimitive [1, 2, 3] p (bytesOf testTimestamp) [] []).2 := fun p => by
    rw [ez_encrypt_valid toyPrimitive [1, 2, 3] p _ [] [] (by decide)]
    simp
  ⟨⟨toyPrimitive_lawful, m1 _,
      ez_round_trip toyPrimitive toyPrimitive_lawful [1, 2, 3] _ _ [] [] _ (m1 _)⟩,
    ez_round_trip toyPrimitive toyPrimitive_lawful [1, 2, 3] _ _ [] [] _ (m1 _)⟩

/-- C6: empty-field fidelity. For every plaintext and valid timestamp, encrypting
with hint `""` and filename `""` delivers a container whose decryption delivers,
in its one callback invocation, hint and filename as non-null pointers to the empty
string: each compares equal to `""` under `strcmp`. -/
theorem ez_empty_fields_delivered (P : Primitive) (hP : P.Lawful) (nonce p t : List Byte)
    (hv : validTimestamp t) :
    ∃ c d, ez_encrypt P nonce p t [] [] = (0, [some c])
      ∧ ez_decrypt P c = (0, [d])
      ∧ d.2.1 = some [] ∧ d.2.2 = some []
      ∧ strcmp (lit "") (toPtr d.2.1) = .ok 0 ∧ strcmp (lit "") (toPtr d.2.2) = .ok 0 := by
  refine ⟨toText (container P nonce ⟨p, t, [], []⟩), (some p, some [], some []),
    ez_encrypt_valid P nonce p t [] [] hv, ?_, rfl, rfl, by rfl, by rfl⟩
  apply decrypt_of_delivered P hP nonce p t [] []
  rw [ez_encrypt_valid P nonce p t [] [] hv]
  simp

/-- Witness of C6: the plaintext and timestamp of the first test. -/
theorem ez_empty_fields_delivered_witness :
    toyPrimitive.Lawful ∧ validTimestamp (bytesOf testTimestamp)
    ∧ ∃ c d, ez_encrypt toyPrimitive [9, 9] (bytesOf smallText) (bytesOf testTimestamp) [] []
          = (0, [some c])
      ∧ ez_decrypt toyPrimitive c = (0, [d])
      ∧ d.2.1 = some [] ∧ d.2.2 = some []
      ∧ strcmp (lit "") (toPtr d.2.1) = .ok 0 ∧ strcmp (lit "") (toPtr d.2.2) = .ok 0 :=
  ⟨toyPrimitive_lawful, by decide,
    ez_empty_fields_delivered toyPrimitive toyPrimitive_lawful [9, 9] _ _ (by decide)⟩

/-! ## The claims about `main.c` -/

/-- C8: copy on receipt in `decrypted_callback`. For every three NUL-terminated
strings `p`, `h`, `f`, each of length below `2 ^ 31 - 1`, and every prior state of
the globals, the call returns 0, leaves `plaintext`, `hint` and `filename` pointing
at new blocks that hold `p`, `h` and `f` up to and including the first NUL byte, and
leaves `cipher` unchanged. -/
theorem decrypted_callback_copies (p h f : Buf) (g : Globals)
    (hp : (0 : Byte) ∈ p) (hh : (0 : Byte) ∈ h) (hf : (0 : Byte) ∈ f)
    (lp : (cstr p).length < 2 ^ 31 - 1) (lh : (cstr h).length < 2 ^ 31 - 1)
    (lf : (cstr f).length < 2 ^ 31 - 1) :
    decrypted_callback (some p) (some h) (some f) g
      = .ok (0, { cipher := g.cipher, plaintext := some (cstr p ++ [0]),
                  hint := some (cstr h ++ [0]), filename := some (cstr f ++ [0]) }) :=
  decrypted_callback_ok p h f g hp hh hf lp lh lf

/-- Witness of C8: three strings, the first followed by bytes after its NUL, and
globals that already hold blocks. -/
theorem decrypted_callback_copies_witness :
    decrypted_callback (some (bytesOf "hello world" ++ [0, 7, 7])) (some [0])
        (some (bytesOf "a.txt" ++ [0])) ⟨lit "c", lit "old", none, lit "x"⟩
      = .ok (0, { cipher := lit "c",
                  plaintext := some (cstr (bytesOf "hello world" ++ [0, 7, 7]) ++ [0]),
                  hint := some (cstr [0] ++ [0]),
                  filename := some (cstr (bytesOf "a.txt" ++ [0]) ++ [0]) }) :=
  decrypted_callback_copies _ _ _ _ (by decide) (by decide) (by decide)
    (by decide) (by decide) (by decide)

/-- C10, as stated, fails: the library that refuses every call meets (i) and (ii),
for whatever timestamps count as valid, and the first assertion of the first test
fails on it. -/
theorem tests_need_encrypt_success :
    OnSuccessOnce rejectAll ∧ (∀ valid, RoundTripLaw valid rejectAll)
    ∧ test_encrypt_vguess_small_str rejectAll initialGlobals = .error (.assertionFailed 114) := by
  refine ⟨⟨?_, ?_⟩, ?_, by rfl⟩
  · intro p t h f hs
    simp [rejectAll] at hs
  · intro c hs
    simp [rejectAll] at hs
  · intro valid p t h f c _ hd
    simp [Delivers, rejectAll] at hd

/-- C10, amended: for any implementation of the two entry points that (i) on
success returns 0 after invoking the callback exactly once, (ii) satisfies the
round-trip law and (iii) succeeds on each test's call of `encrypt`, handing over a
NUL-terminated container shorter than `2 ^ 31 - 1` bytes (the range of the `int`
length of `encrypted_callback`), both tests run through
all their assertions from any state of the globals, and leave `cipher` holding the
container of the test's own call of `encrypt`, `plaintext` equal to `plaintext_orig`
and `hint` and `filename` equal to `""`. -/
theorem tests_pass (valid : Str → Prop) (L : Library) (g : Globals)
    (hv : valid (bytesOf testTimestamp)) (h1 : OnSuccessOnce L) (h2 : RoundTripLaw valid L)
    (hs : SucceedsOn L (bytesOf smallText)) (hl : SucceedsOn L (bytesOf largeText)) :
    (∃ c, (L.snailcrypt_ez_encrypt (bytesOf smallText) (bytesOf testTimestamp) [] []).2
          = [some c]
        ∧ test_encrypt_vguess_small_str L g
          = .ok ⟨some (c ++ [0]), lit smallText, lit "", lit ""⟩)
    ∧ (∃ c, (L.snailcrypt_ez_encrypt (bytesOf largeText) (bytesOf testTimestamp) [] []).2
          = [some c]
        ∧ test_encrypt_vguess_large_str L g
          = .ok ⟨some (c ++ [0]), lit largeText, lit "", lit ""⟩) :=
  ⟨test_body_ok valid L g _ 114 smallText_no_nul smallText_short hv h1 h2 hs,
    test_body_ok valid L g _ 145 largeText_no_nul largeText_short hv h1 h2 hl⟩

/-- Witness of C10 amended: the modelled library over the example primitive, from
the initial globals. -/
theorem tests_pass_witness :
    (validTimestamp (bytesOf testTimestamp)
      ∧ OnSuccessOnce (specLibrary toyPrimitive [9, 9])
      ∧ RoundTripLaw validTimestamp (specLibrary toyPrimitive [9, 9])
      ∧ SucceedsOn (specLibrary toyPrimitive [9, 9]) (bytesOf smallText)
      ∧ SucceedsOn (specLibrary toyPrimitive [9, 9]) (bytesOf largeText))
    ∧ (∃ c, ((specLibrary toyPrimitive [9, 9]).snailcrypt_ez_encrypt (bytesOf smallText)
            (bytesOf testTimestamp) [] []).2 = [some c]
        ∧ test_encrypt_vguess_small_str (specLibrary toyPrimitive [9, 9]) initialGlobals
          = .ok ⟨some (c ++ [0]), lit smallText, lit "", lit ""⟩)
    ∧ (∃ c, ((specLibrary toyPrimitive [9, 9]).snailcrypt_ez_encrypt (bytesOf largeText)
            (bytesOf testTimestamp) [] []).2 = [some c]
        ∧ test_encrypt_vguess_large_str (specLibrary toyPrimitive [9, 9]) initialGlobals
          = .ok ⟨some (c ++ [0]), lit largeText, lit "", lit ""⟩) :=
  have hv : validTimestamp (bytesOf testTimestamp) := by decide
  have h1 := specLibrary_onSuccessOnce toyPrimitive [9, 9]
  have h2 := specLibrary_roundTrip toyPrimitive toyPrimitive_lawful [9, 9]
  have hs := specLibrary_succeedsOn toyPrimitive [9, 9] _ toy_small_short
  have hl := specLibrary_succeedsOn toyPrimitive [9, 9] _ toy_large_short
  ⟨⟨hv, h1, h2, hs, hl⟩,
    tests_pass validTimestamp (specLibrary toyPrimitive [9, 9]) initialGlobals hv h1 h2 hs hl⟩

/-! ## Further properties of `main.c` -/

theorem strcmpBuf_eq_zero (a b : Buf) (h : strcmpBuf a b = some 0) : cstr a = cstr b := by
  induction a generalizing b with
  | nil => simp [strcmpBuf] at h
  | cons x xs ih =>
    cases b with
    | nil => simp [strcmpBuf] at h
    | cons y ys =>
      by_cases hxy : x = y
      · subst hxy
        by_cases hx : x = 0
        · simp [cstr, hx]
        · simp only [strcmpBuf, ne_eq, not_true_eq_false, if_false, if_neg hx] at h
          have := ih ys h
          simp only [cstr] at this ⊢
          simpa [List.takeWhile_cons, hx] using this
      · simp only [strcmpBuf, ne_eq, hxy, not_false_eq_true, if_true, Option.some.injEq] at h
        exact absurd (Fin.ext (by omega)) hxy

theorem strcmp_eq_zero (p q : Ptr) (h : strcmp p q = .ok 0) :
    ∃ a b, p = some a ∧ q = some b ∧ cstr a = cstr b := by
  cases p with
  | none => simp [strcmp] at h
  | some a =>
    cases q with
    | none => simp [strcmp] at h
    | some b =>
      refine ⟨a, b, rfl, rfl, ?_⟩
      simp only [strcmp] at h
      cases hc : strcmpBuf a b with
      | none => simp [hc] at h
      | some r =>
        simp only [hc, Except.ok.injEq] at h
        subst h
        exact strcmpBuf_eq_zero a b hc

theorem c_assert_ok (cond : Bool) (line : Nat) (h : c_assert cond line = .ok ()) :
    cond = true := by
  cases cond with
  | true => rfl
  | false => simp [c_assert] at h

theorem test_body_passed (text : Str) (line0 : Nat) (L : Library) (g g2 : Globals)
    (ht0 : (0 : Byte) ∉ text) (h : test_body (some (text ++ [0])) line0 L g = .ok g2) :
    (L.snailcrypt_ez_encrypt text (bytesOf testTimestamp) [] []).1 = 0
    ∧ (∃ c, (L.snailcrypt_ez_decrypt c).1 = 0)
    ∧ (∃ b, g2.plaintext = some b ∧ cstr b = text)
    ∧ (∃ b, g2.hint = some b ∧ cstr b = [])
    ∧ (∃ b, g2.filename = some b ∧ cstr b = []) := by
  have r0 : readString (some ([] ++ [0])) = .ok [] := readString_string [] (by simp)
  simp only [List.nil_append] at r0
  simp only [test_body, call_encrypt, call_decrypt, lit, show bytesOf "" = [] from rfl,
    List.nil_append, readString_string text ht0, r0,
    readString_string _ testTimestamp_no_nul, bind, Except.bind, pure, Except.pure] at h
  split at h
  · exact absurd h (by simp)
  rename_i g1 hg1
  split at h
  · exact absurd h (by simp)
  rename_i u1 ha1
  split at h
  · exact absurd h (by simp)
  rename_i u2 ha2
  split at h
  · exact absurd h (by simp)
  rename_i r2 hr2
  split at h
  · exact absurd h (by simp)
  rename_i u3 ha3
  split at h
  · exact absurd h (by simp)
  rename_i u4 ha4
  split at h
  · exact absurd h (by simp)
  rename_i u5 ha5
  split at h
  · exact absurd h (by simp)
  rename_i u6 ha6
  split at h
  · exact absurd h (by simp)
  rename_i v1 hv1
  split at h
  · exact absurd h (by simp)
  rename_i u7 ha7
  split at h
  · exact absurd h (by simp)
  rename_i v2 hv2
  split at h
  · exact absurd h (by simp)
  rename_i u8 ha8
  split at h
  · exact absurd h (by simp)
  rename_i v3 hv3
  split at h
  · exact absurd h (by simp)
  rename_i u9 ha9
  have hg2 : r2.2 = g2 := by simpa using h
  subst hg2
  have z1 := c_assert_ok _ _ ha1
  have z3 := c_assert_ok _ _ ha3
  have z7 := c_assert_ok _ _ ha7
  have z8 := c_assert_ok _ _ ha8
  have z9 := c_assert_ok _ _ ha9
  simp only [beq_iff_eq] at z1 z3 z7 z8 z9
  subst z7 z8 z9
  obtain ⟨a1, b1, ea1, eb1, ec1⟩ := strcmp_eq_zero _ _ hv1
  obtain ⟨a2, b2, ea2, eb2, ec2⟩ := strcmp_eq_zero _ _ hv2
  obtain ⟨a3, b3, ea3, eb3, ec3⟩ := strcmp_eq_zero _ _ hv3
  cases ea1
  cases ea2
  cases ea3
  rw [cstr_append_nul text ht0] at ec1
  have e0 : cstr ([0] : Buf) = [] := by decide
  rw [e0] at ec2 ec3
  refine ⟨?_, ?_, ⟨b1, eb1, ec1.symm⟩, ⟨b2, eb2, ec2.symm⟩, ⟨b3, eb3, ec3.symm⟩⟩
  · split at hg1
    · exact absurd hg1 (by simp)
    · simp only [Except.ok.injEq] at hg1
      rw [← hg1] at z1
      exact z1
  · split at hr2
    · exact absurd hr2 (by simp)
    · rename_i c hc
      split at hr2
      · exact absurd hr2 (by simp)
      · simp only [Except.ok.injEq] at hr2
        rw [← hr2] at z3
        exact ⟨c, z3⟩

/-- X1: `encrypted_callback` copies on receipt: for a NUL-terminated string `c`
shorter than `2 ^ 31 - 1` bytes and any prior globals, the call returns 0, leaves
`cipher` pointing at a new block that holds `c` up to and including its first NUL,
and leaves `plaintext`, `hint` and `filename` as they were. -/
theorem encrypted_callback_copies (c : Buf) (g : Globals) (hc : (0 : Byte) ∈ c)
    (hl : (cstr c).length < 2 ^ 31 - 1) :
    encrypted_callback (some c) g
      = .ok (0, { cipher := some (cstr c ++ [0]), plaintext := g.plaintext,
                  hint := g.hint, filename := g.filename }) :=
  encrypted_callback_ok c g hc hl

/-- Instance for X1: a buffer with bytes after the NUL,
received while all four globals hold blocks. -/
theorem encrypted_callback_copies_witness :
    encrypted_callback (some (bytesOf "0a1b" ++ [0, 9])) ⟨lit "old", lit "p", lit "h", lit "f"⟩
      = .ok (0, { cipher := some (cstr (bytesOf "0a1b" ++ [0, 9]) ++ [0]), plaintext := lit "p",
                  hint := lit "h", filename := lit "f" }) :=
  encrypted_callback_copies _ _ (by decide) (by decide)

/-- X2: the `int` length of `decrypted_callback` overflows on a long plaintext: for a
NUL-terminated `plaintext_new` of length from `2 ^ 31 - 1` up to `2 ^ 32 - 2`, any
other arguments and any globals, `plaintextlen` is negative, the allocation fails
and the copy through `NULL` is undefined behaviour. The bound of C8 is needed. -/
theorem decrypted_callback_int_overflow (p : Buf) (h f : Ptr) (g : Globals)
    (h0 : (0 : Byte) ∈ p) (h1 : 2 ^ 31 - 1 ≤ (cstr p).length)
    (h2 : (cstr p).length + 1 < 2 ^ 32) :
    decrypted_callback (some p) h f g = .error .undefinedBehaviour :=
  decrypted_callback_overflow_gen p h f g h0 h1 h2

/-- Instance for X2: a plaintext of exactly
`2 ^ 31 - 1` bytes. -/
theorem decrypted_callback_int_overflow_witness :
    decrypted_callback (some (List.replicate 2147483647 97 ++ [0])) (lit "") (lit "")
        initialGlobals
      = .error .undefinedBehaviour :=
  have hc : cstr (List.replicate 2147483647 (97 : Byte) ++ [0]) = List.replicate 2147483647 97 :=
    cstr_replicate 2147483647 97 (by decide)
  decrypted_callback_int_overflow _ _ _ initialGlobals (nul_mem_append_nul _)
    (by rw [hc, List.length_replicate]; decide) (by rw [hc, List.length_replicate]; decide)

/-- X3: the `main` of `main.c` returns 0 under the facade contract: for a library that
meets (i), (ii) and succeeds on both tests' calls with short containers, both
tests pass in sequence from any globals, `cipher` and `plaintext` are freed, and
`hint` and `filename` still point at their blocks on exit (`main` does not free
them). -/
theorem main_returns_zero (valid : Str → Prop) (L : Library) (g : Globals)
    (hv : valid (bytesOf testTimestamp)) (h1 : OnSuccessOnce L) (h2 : RoundTripLaw valid L)
    (hs : SucceedsOn L (bytesOf smallText)) (hl : SucceedsOn L (bytesOf largeText)) :
    main L g = .ok (0, ⟨none, none, lit "", lit ""⟩) := by
  obtain ⟨c1, _, e1⟩ := test_body_ok valid L g _ 114 smallText_no_nul smallText_short hv h1 h2 hs
  obtain ⟨c2, _, e2⟩ := test_body_ok valid L
    ⟨some (c1 ++ [0]), some (bytesOf smallText ++ [0]), some [0], some [0]⟩ _ 145
    largeText_no_nul largeText_short hv h1 h2 hl
  simp only [main, test_small_eq_body, test_large_eq_body, lit, e1, e2, bind, Except.bind,
    pure, Except.pure]
  simp [free, bytesOf]

/-- Instance for X3: the modelled library over the example
primitive, from the initial globals. -/
theorem main_returns_zero_witness :
    main (specLibrary toyPrimitive [9, 9]) initialGlobals
      = .ok (0, ⟨none, none, lit "", lit ""⟩) :=
  main_returns_zero validTimestamp (specLibrary toyPrimitive [9, 9]) initialGlobals (by decide)
    (specLibrary_onSuccessOnce toyPrimitive [9, 9])
    (specLibrary_roundTrip toyPrimitive toyPrimitive_lawful [9, 9])
    (specLibrary_succeedsOn toyPrimitive [9, 9] _ toy_small_short)
    (specLibrary_succeedsOn toyPrimitive [9, 9] _ toy_large_short)

/-- X4: what a passing first test establishes about the library: if
`test_encrypt_vguess_small_str` runs through all its assertions, then `encrypt`
returned status 0 on `"hello world"` with the test's timestamp and empty hint and
filename, some call of `decrypt` returned status 0, and the globals `plaintext`,
`hint` and `filename` are non-null and hold `"hello world"`, `""` and `""`. -/
theorem test_small_passed (L : Library) (g g2 : Globals)
    (h : test_encrypt_vguess_small_str L g = .ok g2) :
    (L.snailcrypt_ez_encrypt (bytesOf smallText) (bytesOf testTimestamp) [] []).1 = 0
    ∧ (∃ c, (L.snailcrypt_ez_decrypt c).1 = 0)
    ∧ (∃ b, g2.plaintext = some b ∧ cstr b = bytesOf smallText)
    ∧ (∃ b, g2.hint = some b ∧ cstr b = [])
    ∧ (∃ b, g2.filename = some b ∧ cstr b = []) :=
  test_body_passed (bytesOf smallText) 114 L g g2 smallText_no_nul h

/-- Instance for X4: the run of the first test on the modelled
library over the example primitive. -/
theorem test_small_passed_witness :
    test_encrypt_vguess_small_str (specLibrary toyPrimitive [9, 9]) initialGlobals
      = .ok ⟨some (toText (container toyPrimitive [9, 9]
            ⟨bytesOf smallText, bytesOf testTimestamp, [], []⟩) ++ [0]),
          lit smallText, lit "", lit ""⟩
    ∧ ((specLibrary toyPrimitive [9, 9]).snailcrypt_ez_encrypt (bytesOf smallText)
          (bytesOf testTimestamp) [] []).1 = 0
    ∧ (∃ c, ((specLibrary toyPrimitive [9, 9]).snailcrypt_ez_decrypt c).1 = 0)
    ∧ (∃ b, (lit smallText) = some b ∧ cstr b = bytesOf smallText)
    ∧ (∃ b, (lit "") = some b ∧ cstr b = [])
    ∧ (∃ b, (lit "") = some b ∧ cstr b = []) :=
  have h : test_encrypt_vguess_small_str (specLibrary toyPrimitive [9, 9]) initialGlobals
      = .ok ⟨some (toText (container toyPrimitive [9, 9]
            ⟨bytesOf smallText, bytesOf testTimestamp, [], []⟩) ++ [0]),
          lit smallText, lit "", lit ""⟩ := by rfl
  ⟨h, test_small_passed _ _ _ h⟩

/-- X5: the two callbacks act on disjoint globals: for NUL-terminated strings shorter
than `2 ^ 31 - 1` bytes, calling `encrypted_callback` and then
`decrypted_callback` leaves the same globals as calling them in the other order. -/
theorem callbacks_commute (c p h f : Buf) (g : Globals)
    (hc : (0 : Byte) ∈ c) (hp : (0 : Byte) ∈ p) (hh : (0 : Byte) ∈ h) (hf : (0 : Byte) ∈ f)
    (lc : (cstr c).length < 2 ^ 31 - 1) (lp : (cstr p).length < 2 ^ 31 - 1)
    (lh : (cstr h).length < 2 ^ 31 - 1) (lf : (cstr f).length < 2 ^ 31 - 1) :
    (encrypted_callback (some c) g >>= fun r =>
        decrypted_callback (some p) (some h) (some f) r.2)
      = (decrypted_callback (some p) (some h) (some f) g >>= fun r =>
        encrypted_callback (some c) r.2) := by
  simp only [encrypted_callback_ok c _ hc lc, decrypted_callback_ok p h f _ hp hh hf lp lh lf,
    bind, Except.bind]

/-- Instance for X5, from the initial globals. -/
theorem callbacks_commute_witness :
    (encrypted_callback (lit "0a1b") initialGlobals >>= fun r =>
        decrypted_callback (lit "hello world") (lit "") (lit "") r.2)
      = (decrypted_callback (lit "hello world") (lit "") (lit "") initialGlobals >>= fun r =>
        encrypted_callback (lit "0a1b") r.2) :=
  callbacks_commute _ _ _ _ initialGlobals (by decide) (by decide) (by decide) (by decide)
    (by decide) (by decide) (by decide) (by decide)

theorem test_body_long_container (text : Str) (line0 : Nat) (L : Library) (g : Globals) (c : Str)
    (ht0 : (0 : Byte) ∉ text)
    (hd : L.snailcrypt_ez_encrypt text (bytesOf testTimestamp) [] [] = (0, [some c]))
    (hc : (0 : Byte) ∉ c) (h1 : INT_MAX ≤ c.length) (h2 : c.length + 1 < INT_MOD) :
    test_body (some (text ++ [0])) line0 L g = .error .undefinedBehaviour := by
  have e1 := encrypted_callback_overflow (c ++ [0]) g (nul_mem_append_nul c)
    (by rw [cstr_append_nul c hc]; exact h1) (by rw [cstr_append_nul c hc]; exact h2)
  have r0 : readString (some ([] ++ [0])) = .ok [] := readString_string [] (by simp)
  simp only [List.nil_append] at r0
  simp only [test_body, call_encrypt, lit, show bytesOf "" = [] from rfl,
    List.nil_append, readString_string text ht0, r0,
    readString_string _ testTimestamp_no_nul, bind, Except.bind, pure, Except.pure,
    hd, List.foldlM_cons, toPtr, Option.map, e1]

/-- X6: the `int` length of `encrypted_callback` reaches the tests: if the library
answers the first test's call of `encrypt` with status 0 and one container of
`2 ^ 31 - 1` up to `2 ^ 32 - 2` bytes, the test ends in undefined behaviour inside
the callback, before its first assertion, whatever the globals were. -/
theorem test_small_long_container (L : Library) (g : Globals) (c : Str)
    (hd : L.snailcrypt_ez_encrypt (bytesOf smallText) (bytesOf testTimestamp) [] []
      = (0, [some c]))
    (hc : (0 : Byte) ∉ c) (h1 : 2 ^ 31 - 1 ≤ c.length) (h2 : c.length + 1 < 2 ^ 32) :
    test_encrypt_vguess_small_str L g = .error .undefinedBehaviour :=
  test_body_long_container (bytesOf smallText) 114 L g c smallText_no_nul hd hc h1 h2

/-- Instance for X6: a library that always hands over `2 ^ 31 - 1` bytes `a`. -/
theorem test_small_long_container_witness :
    test_encrypt_vguess_small_str
        ⟨fun _ _ _ _ => (0, [some (List.replicate 2147483647 97)]), fun _ => (1, [])⟩
        initialGlobals
      = .error .undefinedBehaviour :=
  test_small_long_container _ initialGlobals (List.replicate 2147483647 97) rfl
    (fun h => absurd (List.eq_of_mem_replicate h) (by decide))
    (by rw [List.length_replicate]; decide) (by rw [List.length_replicate]; decide)

end Snailcrypt
